import Mathlib

/-!
Verification model of `src/dnstest.py` (DNS benchmarking and pollution
detection core).

Each definition is a shallow embedding of one function of the source file;
the original (Chinese) name is given in the doc comment.  Network and
library effects (dnspython resolution, the MMDB database) are passed in as
explicit oracle functions: a run of the program fixes their behaviour, and
all claims are quantified over them.  Latencies and rates are modelled as
rationals, machine floats carrying exact decimal values in the scenarios
considered.  Strings keep the exact literals of the source
("已污染" polluted, "未污染" clean, "待检测" pending, "未测试" untested).
-/

namespace DnsTest

/-- Result of one DNS query, the tuple returned by `执行_dns查询`
(line 170): success flag, latency in ms, resolved addresses. -/
structure QueryOutcome where
  success : Bool
  latencyMs : ℚ
  addresses : List String
deriving Repr, DecidableEq

/-- Oracle for `resolver.resolve`: given (domain, nameserver, record type,
timeout) it yields the elapsed wall-clock time and either the resolved
addresses or an error of kind `E` (timeout, SERVFAIL, NXDOMAIN, ...). -/
def ResolveOracle (E : Type) : Type :=
  String → String → String → ℚ → ℚ × Except E (List String)

/-- `执行_dns查询` (lines 170-179): one DNS query; every exception from the
underlying resolution is folded into `success := false` with the elapsed
time kept and an empty address list. -/
def execDnsQuery {E : Type} (resolve : ResolveOracle E)
    (domain dnsServer recordType : String) (timeoutSec : ℚ) : QueryOutcome :=
  let r := resolve domain dnsServer recordType timeoutSec
  match r.2 with
  | Except.ok ipList => ⟨true, r.1, ipList⟩
  | Except.error _ => ⟨false, r.1, []⟩

/-- Configuration state of a dnspython `Resolver` object, as far as the
source manipulates it: whether the system resolver configuration was read
at construction (`configure` argument), the nameserver list, the
per-attempt timeout, the total-resolution lifetime, and the answer cache
(`none` = caching disabled). -/
structure Resolver where
  configureFromSystem : Bool
  nameservers : List String
  timeout : ℚ
  lifetime : ℚ
  cache : Option Unit
deriving Repr, DecidableEq

/-- A freshly constructed `dns.resolver.Resolver(configure=...)`:
dnspython defaults are timeout 2.0, lifetime 5.0, `cache = None`, and the
nameserver list populated from the system configuration iff `configure`
is true (`sysNameservers` models the system's /etc/resolv.conf list). -/
def dnspythonResolver (sysNameservers : List String) (configure : Bool) : Resolver :=
  { configureFromSystem := configure
  , nameservers := if configure then sysNameservers else []
  , timeout := 2
  , lifetime := 5
  , cache := none }

/-- `创建干净_resolver` (lines 76-83): `Resolver(configure=False)`, then
`nameservers = [dns_server]`, `timeout = lifetime = timeout`,
`cache = None`.  Default timeout 3.0 (used by `终极污染检测`). -/
def createCleanResolver (sysNameservers : List String) (dnsServer : String)
    (timeout : ℚ := 3) : Resolver :=
  let r := dnspythonResolver sysNameservers false
  { r with nameservers := [dnsServer], timeout := timeout,
           lifetime := timeout, cache := none }

/-- `获取_resolver` (lines 157-168): the thread-local benchmark resolver.
It is built by `dns.resolver.Resolver()` — `configure` defaults to True —
then `nameservers = [dns_server]`, `timeout = lifetime = timeout_sec`;
the cache is left at dnspython's default (`None`).  The thread-local
memoisation of the instance does not change the constructed
configuration modelled here. -/
def getResolver (sysNameservers : List String) (dnsServer : String)
    (timeoutSec : ℚ) : Resolver :=
  let r := dnspythonResolver sysNameservers true
  { r with nameservers := [dnsServer], timeout := timeoutSec,
           lifetime := timeoutSec }

/-- The resolver-isolation contract stated by the specification for the
Isolated Resolver Factory (§4.2): system configuration ignored, queries
only to the given address, the same value as timeout and lifetime, and
caching disabled.  Written from the spec's words, to be compared with the
two constructors above. -/
def IsolatedResolverSpec (r : Resolver) (addr : String) (t : ℚ) : Prop :=
  r.configureFromSystem = false ∧ r.nameservers = [addr] ∧
  r.timeout = t ∧ r.lifetime = t ∧ r.cache = none

/-- Oracle for `检查_google_ip` (lines 50-74): classification of one IP
address as belonging to the expected organisation.  A run of the program
fixes this function (it is a pure lookup in the loaded MMDB; when the
database is unavailable it is constantly false). -/
def CheckIpOracle : Type := String → Bool

/-- Oracle for the five verification rounds of `终极污染检测`: for round
`i`, `none` models `resolver.resolve` raising an exception, `some ips`
the list of resolved addresses. -/
def RoundOracle : Type := Nat → Option (List String)

/-- The round loop of `终极污染检测` (lines 100-117), instrumented with
the number of rounds issued so far.  Arguments: pure-count accumulator
`纯净次数` (`pure`), current round index `i`, remaining rounds `fuel`
(the source runs `for i in range(5)`); returns (verdict, index one past
the last round issued).  When the loop ends, the verdict is `"未污染"`
iff the pure count equals 5 (line 119). -/
def fiveRounds (checkIp : CheckIpOracle) (rounds : RoundOracle) :
    Nat → Nat → Nat → String × Nat
  | pure, i, 0 => (if pure = 5 then "未污染" else "已污染", i)
  | pure, i, fuel + 1 =>
    match rounds i with
    | none => ("已污染", i + 1)
    | some ipList =>
      if ipList.all checkIp then fiveRounds checkIp rounds (pure + 1) (i + 1) fuel
      else ("已污染", i + 1)

/-- `终极污染检测` (lines 85-121): baseline check of the first 3 benchmark
IPs, then 5 independent fresh-resolver rounds.  The first component is the
verdict string returned by the source; the second component instruments
the model with the number of rounds issued (resolver constructions /
queries made), which the claims about short-circuiting refer to.  The
baseline loop of the source returns on the first unclassified address;
this is equivalent to the conjunction over the first 3 addresses, and in
both cases zero rounds are issued. -/
def ultimatePollutionCheck (checkIp : CheckIpOracle) (rounds : RoundOracle)
    (dnsServer : String) (benchmarkIps : List String) : String × Nat :=
  if (benchmarkIps.take 3).all checkIp then fiveRounds checkIp rounds 0 0 5
  else ("已污染", 0)

/-- Round `i` passes: the resolution succeeds and every resolved address
classifies as the expected organisation (line 110). -/
def roundPasses (checkIp : CheckIpOracle) (rounds : RoundOracle) (i : Nat) : Bool :=
  match rounds i with
  | none => false
  | some ipList => ipList.all checkIp

/-- Per-candidate benchmark aggregate, the dict built by `测试单个dns`
(lines 213-217): keys `dns_server`, `成功率`, `平均延迟_ms`,
`最小延迟_ms`, `最大延迟_ms`, `dns污染`, `google_ips`. -/
structure BenchmarkRecord where
  dnsServer : String
  successRate : ℚ
  avgLatencyMs : ℚ
  minLatencyMs : ℚ
  maxLatencyMs : ℚ
  pollutionState : String
  googleIps : List String
deriving Repr, DecidableEq

/-- Python `min` over a nonempty list (the empty case is unreachable,
guarded by `延迟列表` being nonempty). -/
def listMin : List ℚ → ℚ
  | [] => 0
  | x :: xs => xs.foldl min x

/-- Python `max` over a nonempty list. -/
def listMax : List ℚ → ℚ
  | [] => 0
  | x :: xs => xs.foldl max x

/-- Record-type selection of line 192:
`"A" if ip_mode != "6" and (ip_mode == "4" or 是IPv4) else "AAAA"`.
`isIPv4` models the `ipaddress` classification of the candidate at
lines 186-189 (parse failure defaults to IPv4). -/
def rtypeChoice (ipMode : String) (isIPv4 : Bool) : String :=
  if ipMode != "6" && (ipMode == "4" || isIPv4) then "A" else "AAAA"

/-- The domain loop of `测试单个dns` (lines 191-201).  Accumulators:
`总次数` attempts, `成功次数` successes, `延迟列表` latencies of the
successful queries, `domain_ips` the per-domain address dict (modelled as
an association list with newest binding first, which gives dict lookup
semantics).  The latency of every attempt — success or failure — is
compared against `延迟下限_ms`; a too-fast attempt aborts the whole
candidate (`return None`, modelled by `none`).  The source guard is
`latency is not None and latency < 延迟下限_ms`; `执行_dns查询` always
returns a float latency, so only the comparison remains. -/
def testLoop {E : Type} (resolve : ResolveOracle E) (dnsServer rtype : String)
    (timeoutSec latencyFloorMs : ℚ) :
    List String → Nat → Nat → List ℚ → List (String × List String) →
    Option (Nat × Nat × List ℚ × List (String × List String))
  | [], attempts, successes, latencies, domainIps =>
    some (attempts, successes, latencies, domainIps)
  | domain :: rest, attempts, successes, latencies, domainIps =>
    let o := execDnsQuery resolve domain dnsServer rtype timeoutSec
    let domainIps' := (domain, o.addresses) :: domainIps
    if o.latencyMs < latencyFloorMs then none
    else if o.success then
      testLoop resolve dnsServer rtype timeoutSec latencyFloorMs rest
        (attempts + 1) (successes + 1) (latencies ++ [o.latencyMs]) domainIps'
    else
      testLoop resolve dnsServer rtype timeoutSec latencyFloorMs rest
        (attempts + 1) successes latencies domainIps'

/-- Lines 203-217 of `测试单个dns`: the post-loop aggregation.  `None` when
no attempt was made or no latency was collected (no success); otherwise the
record with `成功率 = 成功次数/总次数`, avg/min/max over the successful
latencies, `dns污染 = "待检测"` iff the pollution check is enabled and the
success rate exceeds 0.4 (else `"未测试"`), and the addresses stored for
`"google.com"`. -/
def assembleRecord (dnsServer : String) (pollutionEnabled : Bool) :
    Nat × Nat × List ℚ × List (String × List String) → Option BenchmarkRecord
  | (attempts, successes, latencies, domainIps) =>
    if attempts = 0 ∨ latencies = [] then none
    else
      some
        { dnsServer := dnsServer
        , successRate := (successes : ℚ) / (attempts : ℚ)
        , avgLatencyMs := latencies.sum / (latencies.length : ℚ)
        , minLatencyMs := listMin latencies
        , maxLatencyMs := listMax latencies
        , pollutionState :=
            if pollutionEnabled ∧ (successes : ℚ) / (attempts : ℚ) > (0.4 : ℚ)
            then "待检测" else "未测试"
        , googleIps := (List.lookup "google.com" domainIps).getD [] }

/-- `测试单个dns` (lines 181-217): benchmark of one candidate — the domain
loop followed by the aggregation. -/
def testSingleDns {E : Type} (resolve : ResolveOracle E) (isIPv4 : Bool)
    (dnsServer : String) (domains : List String) (ipMode : String)
    (timeoutSec latencyFloorMs : ℚ) (pollutionEnabled : Bool) :
    Option BenchmarkRecord :=
  (testLoop resolve dnsServer (rtypeChoice ipMode isIPv4) timeoutSec latencyFloorMs
      domains 0 0 [] []).bind
    (assembleRecord dnsServer pollutionEnabled)

/-- Error outcomes of `main`'s core (lines 285-311): `sys.exit(1)` at
line 307 when the benchmark phase yields no usable record, and the
`NameError` raised at line 311, where `main` reads the name
`开启污染检查` whose only assignment (line 281) is commented out —
line 282 assigns `pollute = 1` instead, and `pollute` is what is passed
to the benchmark workers. -/
inductive RunError where
  | exitNoRecords
  | nameErrorPollutionFlag
deriving Repr, DecidableEq

/-- `main`'s probing core (lines 282-311): with `pollute = 1` (truthy),
run the benchmark phase over all candidates, collecting the non-`None`
records (`结果列表`; the thread pool's completion order is abstracted to
submission order — the claims settled on this model do not depend on the
order).  If no record survives, `sys.exit(1)`; otherwise execution
reaches `if 开启污染检查:` (line 311) and raises `NameError`. -/
def mainCore {E : Type} (resolve : ResolveOracle E) (isIPv4 : String → Bool)
    (dnsList : List String) (testDomains : List String) (ipMode : String)
    (timeoutSec latencyFloorMs : ℚ) :
    Except RunError (List BenchmarkRecord) :=
  let pollute := true
  let results := dnsList.filterMap (fun ds =>
    testSingleDns resolve (isIPv4 ds) ds testDomains ipMode timeoutSec
      latencyFloorMs pollute)
  if results = [] then Except.error RunError.exitNoRecords
  else Except.error RunError.nameErrorPollutionFlag

/-- Per-candidate round oracle for the verification phase: the rounds of
`终极污染检测` as a function of the candidate's address. -/
def RoundsByServer : Type := String → RoundOracle

/-- The pollution-verification phase (lines 311-325) under the intended
truthy value of `开启污染检查` (the source sets `pollute = 1` but leaves
the name itself unassigned; see `RunError.nameErrorPollutionFlag`): every
record whose `dns污染` is `"待检测"` has the verdict of `终极污染检测`
written back into it; other records are untouched and the list order is
kept (the source mutates the dicts in place). -/
def pollutionPhase (checkIp : CheckIpOracle) (rounds : RoundsByServer)
    (results : List BenchmarkRecord) : List BenchmarkRecord :=
  results.map (fun r =>
    if r.pollutionState = "待检测" then
      { r with pollutionState :=
          (ultimatePollutionCheck checkIp (rounds r.dnsServer) r.dnsServer r.googleIps).1 }
    else r)

/-- Lines 327-330: any record still `"待检测"` is finalised to
`"未测试"` before export. -/
def finalizeLabels (results : List BenchmarkRecord) : List BenchmarkRecord :=
  results.map (fun r =>
    if r.pollutionState = "待检测" then { r with pollutionState := "未测试" } else r)

/-- Code-point lexicographic order on character lists — Python's `<` on
strings, the order pandas uses to sort the `dns污染` column. -/
def charListLt : List Char → List Char → Bool
  | _, [] => false
  | [], _ :: _ => true
  | a :: as, b :: bs => a.toNat < b.toNat || (a.toNat = b.toNat && charListLt as bs)

/-- `a` is less-or-equal `b` in Python string order. -/
def strLe (a b : String) : Bool := !(charListLt b.data a.data)

/-- The sort key order of line 339
(`ascending=[False, True, False]`): `a` may be placed before `b` iff
success rate descending, then average latency ascending, then the
pollution label descending in Python string order. -/
def recordBefore (a b : BenchmarkRecord) : Prop :=
  a.successRate > b.successRate ∨
    (a.successRate = b.successRate ∧
      (a.avgLatencyMs < b.avgLatencyMs ∨
        (a.avgLatencyMs = b.avgLatencyMs ∧ strLe b.pollutionState a.pollutionState = true)))

instance : DecidableRel recordBefore := fun a b => by
  unfold recordBefore; infer_instance

/-- The sort order claimed by the specification (§4.6): success rate
descending, average latency ascending, then the Clean label (`"未污染"`)
ahead of every other label.  Written from the spec's words, to be
compared with `recordBefore`. -/
def recordBeforeSpec (a b : BenchmarkRecord) : Prop :=
  a.successRate > b.successRate ∨
    (a.successRate = b.successRate ∧
      (a.avgLatencyMs < b.avgLatencyMs ∨
        (a.avgLatencyMs = b.avgLatencyMs ∧
          (b.pollutionState = "未污染" → a.pollutionState = "未污染"))))

instance : DecidableRel recordBeforeSpec := fun a b => by
  unfold recordBeforeSpec; infer_instance

/-- Lines 310-339 after the benchmark phase, under the intended truthy
value of `开启污染检查`: verification phase, finalisation of pending
labels, then the sort of line 339.  pandas' unstable quicksort is
modelled by a deterministic sort with the same key order (the claims are
about the key order, not tie stability). -/
def exportPipeline (checkIp : CheckIpOracle) (rounds : RoundsByServer)
    (results : List BenchmarkRecord) : List BenchmarkRecord :=
  List.insertionSort recordBefore (finalizeLabels (pollutionPhase checkIp rounds results))

/-! Concrete oracles and records used to instantiate the general theorems. -/

/-- Classification oracle of a run where every address classifies as the
expected organisation. -/
def allTrueCheck : CheckIpOracle := fun _ => true

/-- Round oracle of a run where every round resolves to one address. -/
def allGoodRounds : RoundOracle := fun _ => some ["142.250.1.1"]

/-- Round oracle of a run whose third round (index 2) raises an exception. -/
def failThirdRounds : RoundOracle := fun i =>
  if i = 2 then none else some ["142.250.1.1"]

/-- Resolution oracle of a run where every query succeeds in 50 ms. -/
def resolveGood : ResolveOracle Unit := fun _ _ _ _ =>
  ((50 : ℚ), Except.ok ["142.250.1.1"])

/-- Resolution oracle of a run where google.com fails after 2 ms and every
other domain succeeds in 50 ms. -/
def resolveFastFail : ResolveOracle Unit := fun domain _ _ _ =>
  if domain == "google.com" then ((2 : ℚ), Except.error ())
  else ((50 : ℚ), Except.ok ["142.250.1.1"])

/-- Resolution oracle of a run where google.com succeeds in 50 ms and every
other domain fails after 20 ms. -/
def resolveHalf : ResolveOracle Unit := fun domain _ _ _ =>
  if domain == "google.com" then ((50 : ℚ), Except.ok ["142.250.1.1"])
  else ((20 : ℚ), Except.error ())

/-- Resolution oracle of a run where every query raises after 7 ms. -/
def resolveErr : ResolveOracle Unit := fun _ _ _ _ => ((7 : ℚ), Except.error ())

/-- A benchmark record left pending verification by the benchmark phase. -/
def pendingRecord : BenchmarkRecord :=
  { dnsServer := "8.8.8.8", successRate := 1, avgLatencyMs := 50, minLatencyMs := 50,
    maxLatencyMs := 50, pollutionState := "待检测", googleIps := ["142.250.1.1"] }

/-- Invariant of the records entering the sort when the pollution check is
enabled (the orchestrator's `pollute = 1`): an Unverified record has success
rate at most 0.4, while a verified record — Polluted or Clean — has success
rate above 0.4.  It holds because line 211 marks exactly the records with
rate above 0.4 as pending and the verification phase rewrites exactly
those. -/
def reportInvariant (r : BenchmarkRecord) : Prop :=
  (r.pollutionState = "未测试" ∧ ¬ r.successRate > (0.4 : ℚ)) ∨
  ((r.pollutionState = "已污染" ∨ r.pollutionState = "未污染") ∧
    r.successRate > (0.4 : ℚ))

/-- C5's abbreviation: the number of successful queries over a domain list. -/
def succCount {E : Type} (resolve : ResolveOracle E) (dnsServer rtype : String)
    (timeoutSec : ℚ) (domains : List String) : Nat :=
  domains.countP (fun d => (execDnsQuery resolve d dnsServer rtype timeoutSec).success)

/-- C5's abbreviation: the latencies of the successful queries, in domain order. -/
def succLatencies {E : Type} (resolve : ResolveOracle E) (dnsServer rtype : String)
    (timeoutSec : ℚ) (domains : List String) : List ℚ :=
  domains.filterMap (fun d =>
    if (execDnsQuery resolve d dnsServer rtype timeoutSec).success then
      some (execDnsQuery resolve d dnsServer rtype timeoutSec).latencyMs
    else none)

/-! Order-theoretic facts about the Python string order used by the sort. -/

theorem charListLt_irrefl : ∀ a : List Char, charListLt a a = false := by
  intro a
  induction a with
  | nil => rfl
  | cons a1 as ih => simp [charListLt, ih, Nat.lt_irrefl]

theorem charListLt_trans :
    ∀ a b c : List Char, charListLt a b = true → charListLt b c = true →
      charListLt a c = true := by
  intro a
  induction a with
  | nil =>
    intro b c _ hbc
    cases c with
    | nil => simp [charListLt] at hbc
    | cons c1 cs => rfl
  | cons a1 as ih =>
    intro b c hab hbc
    cases b with
    | nil => simp [charListLt] at hab
    | cons b1 bs =>
      cases c with
      | nil => simp [charListLt] at hbc
      | cons c1 cs =>
        simp only [charListLt, Bool.or_eq_true, Bool.and_eq_true,
          decide_eq_true_eq] at hab hbc ⊢
        rcases hab with h1 | ⟨h1, h2⟩ <;> rcases hbc with g1 | ⟨g1, g2⟩
        · left; omega
        · left; omega
        · left; omega
        · right; exact ⟨by omega, ih bs cs h2 g2⟩

theorem charListLt_connex :
    ∀ a b : List Char, charListLt a b = true ∨ a = b ∨ charListLt b a = true := by
  intro a
  induction a with
  | nil =>
    intro b
    cases b with
    | nil => right; left; rfl
    | cons b1 bs => left; rfl
  | cons a1 as ih =>
    intro b
    cases b with
    | nil => right; right; rfl
    | cons b1 bs =>
      rcases Nat.lt_trichotomy a1.toNat b1.toNat with h | h | h
      · left; simp [charListLt, h]
      · have hc : a1 = b1 := Char.eq_of_val_eq (UInt32.toNat.inj h)
        rcases ih bs with h2 | h2 | h2
        · left; simp [charListLt, h, h2]
        · right; left; rw [hc, h2]
        · right; right; simp [charListLt, h.symm, h2]
      · right; right; simp [charListLt, h]

theorem charListLt_asymm {a b : List Char} (h1 : charListLt a b = true)
    (h2 : charListLt b a = true) : False := by
  have := charListLt_trans a b a h1 h2
  rw [charListLt_irrefl] at this
  cases this

theorem strLe_total (a b : String) : strLe a b = true ∨ strLe b a = true := by
  unfold strLe
  cases hab : charListLt a.data b.data with
  | false => right; simp [hab]
  | true =>
    cases hba : charListLt b.data a.data with
    | false => left; simp [hba]
    | true => exact (charListLt_asymm hab hba).elim

theorem strLe_trans {a b c : String} (h1 : strLe a b = true) (h2 : strLe b c = true) :
    strLe a c = true := by
  simp only [strLe, Bool.not_eq_true'] at h1 h2 ⊢
  cases hca : charListLt c.data a.data with
  | false => rfl
  | true =>
    exfalso
    rcases charListLt_connex b.data c.data with h3 | h3 | h3
    · have := charListLt_trans b.data c.data a.data h3 hca
      rw [h1] at this; cases this
    · rw [← h3] at hca; rw [h1] at hca; cases hca
    · rw [h2] at h3; cases h3

instance : IsTotal BenchmarkRecord recordBefore := by
  constructor
  intro a b
  unfold recordBefore
  rcases lt_trichotomy a.successRate b.successRate with h | h | h
  · right; left; exact h
  · rcases lt_trichotomy a.avgLatencyMs b.avgLatencyMs with h2 | h2 | h2
    · left; right; exact ⟨h, Or.inl h2⟩
    · rcases strLe_total b.pollutionState a.pollutionState with h3 | h3
      · left; right; exact ⟨h, Or.inr ⟨h2, h3⟩⟩
      · right; right; exact ⟨h.symm, Or.inr ⟨h2.symm, h3⟩⟩
    · right; right; exact ⟨h.symm, Or.inl h2⟩
  · left; left; exact h

instance : IsTrans BenchmarkRecord recordBefore := by
  constructor
  intro a b c hab hbc
  unfold recordBefore at hab hbc ⊢
  rcases hab with h1 | ⟨h1, h2⟩
  · rcases hbc with g1 | ⟨g1, _⟩
    · left; exact lt_trans g1 h1
    · left; rw [← g1]; exact h1
  · rcases hbc with g1 | ⟨g1, g2⟩
    · left; rw [h1]; exact g1
    · right
      refine ⟨h1.trans g1, ?_⟩
      rcases h2 with h2 | ⟨h2, h3⟩
      · rcases g2 with g2 | ⟨g2, _⟩
        · left; exact lt_trans h2 g2
        · left; rw [← g2]; exact h2
      · rcases g2 with g2 | ⟨g2, g3⟩
        · left; rw [h2]; exact g2
        · right; exact ⟨h2.trans g2, strLe_trans g3 h3⟩

/-! Behaviour of the five verification rounds. -/

theorem fiveRounds_all_pass (checkIp : CheckIpOracle) (rounds : RoundOracle) :
    ∀ (fuel i pure : Nat),
      (∀ j, i ≤ j → j < i + fuel → roundPasses checkIp rounds j = true) →
      fiveRounds checkIp rounds pure i fuel =
        (if pure + fuel = 5 then "未污染" else "已污染", i + fuel) := by
  intro fuel
  induction fuel with
  | zero => intro i pure _; simp [fiveRounds]
  | succ f ih =>
    intro i pure h
    have h0 : roundPasses checkIp rounds i = true := h i le_rfl (by omega)
    unfold roundPasses at h0
    cases hr : rounds i with
    | none => rw [hr] at h0; cases h0
    | some ipList =>
      have hi : ipList.all checkIp = true := by rw [hr] at h0; exact h0
      have step : fiveRounds checkIp rounds pure i (f + 1) =
          fiveRounds checkIp rounds (pure + 1) (i + 1) f := by
        simp [fiveRounds, hr, hi]
      rw [step, ih (i + 1) (pure + 1)
        (fun j hj1 hj2 => h j (by omega) (by omega))]
      have e1 : pure + 1 + f = pure + (f + 1) := by omega
      have e2 : i + 1 + f = i + (f + 1) := by omega
      rw [e1, e2]

theorem fiveRounds_first_fail (checkIp : CheckIpOracle) (rounds : RoundOracle) :
    ∀ (k fuel i pure : Nat), k < fuel →
      (∀ j, i ≤ j → j < i + k → roundPasses checkIp rounds j = true) →
      roundPasses checkIp rounds (i + k) = false →
      fiveRounds checkIp rounds pure i fuel = ("已污染", i + k + 1) := by
  intro k
  induction k with
  | zero =>
    intro fuel i pure hk _ hfail
    obtain ⟨f, rfl⟩ : ∃ f, fuel = f + 1 := ⟨fuel - 1, by omega⟩
    rw [Nat.add_zero] at hfail
    unfold roundPasses at hfail
    cases hr : rounds i with
    | none => simp [fiveRounds, hr]
    | some ipList =>
      have hfail2 : ipList.all checkIp = false := by rw [hr] at hfail; exact hfail
      simp [fiveRounds, hr, hfail2]
  | succ k ih =>
    intro fuel i pure hk hprev hfail
    obtain ⟨f, rfl⟩ : ∃ f, fuel = f + 1 := ⟨fuel - 1, by omega⟩
    have h0 : roundPasses checkIp rounds i = true := hprev i le_rfl (by omega)
    unfold roundPasses at h0
    cases hr : rounds i with
    | none => rw [hr] at h0; cases h0
    | some ipList =>
      have hi : ipList.all checkIp = true := by rw [hr] at h0; exact h0
      have step : fiveRounds checkIp rounds pure i (f + 1) =
          fiveRounds checkIp rounds (pure + 1) (i + 1) f := by
        simp [fiveRounds, hr, hi]
      have hfail' : roundPasses checkIp rounds (i + 1 + k) = false := by
        have e : i + 1 + k = i + (k + 1) := by omega
        rw [e]; exact hfail
      rw [step, ih f (i + 1) (pure + 1) (by omega)
        (fun j hj1 hj2 => hprev j (by omega) (by omega)) hfail']
      have e : i + 1 + k + 1 = i + (k + 1) + 1 := by omega
      rw [e]

theorem fiveRounds_issued_pos (checkIp : CheckIpOracle) (rounds : RoundOracle) :
    ∀ (f i pure : Nat), i + 1 ≤ (fiveRounds checkIp rounds pure i (f + 1)).2 := by
  intro f
  induction f with
  | zero =>
    intro i pure
    cases hr : rounds i with
    | none => simp [fiveRounds, hr]
    | some ipList =>
      by_cases hall : ipList.all checkIp = true
      · simp [fiveRounds, hr, hall]
      · simp [fiveRounds, hr, hall]
  | succ f ih =>
    intro i pure
    cases hr : rounds i with
    | none => simp [fiveRounds, hr]
    | some ipList =>
      by_cases hall : ipList.all checkIp = true
      · have step : fiveRounds checkIp rounds pure i (f + 1 + 1) =
            fiveRounds checkIp rounds (pure + 1) (i + 1) (f + 1) := by
          simp [fiveRounds, hr, hall]
        rw [step]
        have := ih (i + 1) (pure + 1)
        omega
      · simp [fiveRounds, hr, hall]

theorem fiveRounds_verdict (checkIp : CheckIpOracle) (rounds : RoundOracle) :
    ∀ (f pure i : Nat), (fiveRounds checkIp rounds pure i f).1 = "已污染" ∨
      (fiveRounds checkIp rounds pure i f).1 = "未污染" := by
  intro f
  induction f with
  | zero =>
    intro pure i
    by_cases h : pure = 5
    · right; simp [fiveRounds, h]
    · left; simp [fiveRounds, h]
  | succ f ih =>
    intro pure i
    cases hr : rounds i with
    | none => left; simp [fiveRounds, hr]
    | some ipList =>
      by_cases hall : ipList.all checkIp = true
      · have step : fiveRounds checkIp rounds pure i (f + 1) =
            fiveRounds checkIp rounds (pure + 1) (i + 1) f := by
          simp [fiveRounds, hr, hall]
        rw [step]; exact ih (pure + 1) (i + 1)
      · left; simp [fiveRounds, hr, hall]

theorem ultimate_verdict (checkIp : CheckIpOracle) (rounds : RoundOracle)
    (dnsServer : String) (benchmarkIps : List String) :
    (ultimatePollutionCheck checkIp rounds dnsServer benchmarkIps).1 = "已污染" ∨
      (ultimatePollutionCheck checkIp rounds dnsServer benchmarkIps).1 = "未污染" := by
  unfold ultimatePollutionCheck
  by_cases hb : (benchmarkIps.take 3).all checkIp = true
  · simp only [hb, if_true]
    exact fiveRounds_verdict checkIp rounds 5 0 0
  · simp only [hb]
    left
    simp

theorem ultimate_clean_iff (checkIp : CheckIpOracle) (rounds : RoundOracle)
    (dnsServer : String) (benchmarkIps : List String) :
    (ultimatePollutionCheck checkIp rounds dnsServer benchmarkIps).1 = "未污染" ↔
      ((benchmarkIps.take 3).all checkIp = true ∧
        ∀ i, i < 5 → roundPasses checkIp rounds i = true) := by
  unfold ultimatePollutionCheck
  by_cases hb : (benchmarkIps.take 3).all checkIp = true
  · simp only [hb, if_true, true_and]
    constructor
    · intro hclean
      by_contra hnot
      push_neg at hnot
      obtain ⟨i0, hi0lt, hi0⟩ := hnot
      have hQ : ∃ n, roundPasses checkIp rounds n = false ∧ n < 5 :=
        ⟨i0, by simp [Bool.not_eq_true] at hi0; exact hi0, hi0lt⟩
      set k := Nat.find hQ with hkdef
      obtain ⟨hkfail, hklt⟩ := Nat.find_spec hQ
      have hmin : ∀ j, j < k → roundPasses checkIp rounds j = true := by
        intro j hj
        have := Nat.find_min hQ hj
        push_neg at this
        cases hjp : roundPasses checkIp rounds j with
        | false => exact absurd (this hjp) (by omega)
        | true => rfl
      have := fiveRounds_first_fail checkIp rounds k 5 0 0 hklt
        (fun j hj1 hj2 => hmin j (by omega)) (by simpa using hkfail)
      rw [this] at hclean
      simp at hclean
    · intro hall
      rw [fiveRounds_all_pass checkIp rounds 5 0 0
        (fun j hj1 hj2 => hall j (by omega))]
      simp
  · rw [if_neg hb]
    constructor
    · intro h; simp at h
    · intro hall; exact absurd hall.1 hb

/-! Behaviour of the benchmark loop. -/

theorem testLoop_abort {E : Type} (resolve : ResolveOracle E) (dnsServer rtype : String)
    (timeoutSec latencyFloorMs : ℚ) :
    ∀ (domains : List String),
      (∃ d ∈ domains,
        (execDnsQuery resolve d dnsServer rtype timeoutSec).latencyMs < latencyFloorMs) →
      ∀ (a b : Nat) (l : List ℚ) (m : List (String × List String)),
        testLoop resolve dnsServer rtype timeoutSec latencyFloorMs domains a b l m = none := by
  intro domains
  induction domains with
  | nil => intro h; simp at h
  | cons d rest ih =>
    intro h a b l m
    by_cases hd : (execDnsQuery resolve d dnsServer rtype timeoutSec).latencyMs < latencyFloorMs
    · simp [testLoop, hd]
    · have hrest : ∃ d' ∈ rest,
          (execDnsQuery resolve d' dnsServer rtype timeoutSec).latencyMs < latencyFloorMs := by
        obtain ⟨d', hmem, hlt⟩ := h
        rcases List.mem_cons.mp hmem with rfl | hmem'
        · exact absurd hlt hd
        · exact ⟨d', hmem', hlt⟩
      cases hok : (execDnsQuery resolve d dnsServer rtype timeoutSec).success with
      | true => simp [testLoop, hd, hok, ih hrest]
      | false => simp [testLoop, hd, hok, ih hrest]

theorem testLoop_complete {E : Type} (resolve : ResolveOracle E) (dnsServer rtype : String)
    (timeoutSec latencyFloorMs : ℚ) :
    ∀ (domains : List String),
      (∀ d ∈ domains,
        ¬ (execDnsQuery resolve d dnsServer rtype timeoutSec).latencyMs < latencyFloorMs) →
      ∀ (a b : Nat) (l : List ℚ) (m : List (String × List String)),
        ∃ m', testLoop resolve dnsServer rtype timeoutSec latencyFloorMs domains a b l m =
          some (a + domains.length,
            b + domains.countP
              (fun d => (execDnsQuery resolve d dnsServer rtype timeoutSec).success),
            l ++ domains.filterMap (fun d =>
              if (execDnsQuery resolve d dnsServer rtype timeoutSec).success then
                some (execDnsQuery resolve d dnsServer rtype timeoutSec).latencyMs
              else none),
            m') := by
  intro domains
  induction domains with
  | nil => intro _ a b l m; exact ⟨m, by simp [testLoop]⟩
  | cons d rest ih =>
    intro h a b l m
    have hd : ¬ (execDnsQuery resolve d dnsServer rtype timeoutSec).latencyMs < latencyFloorMs :=
      h d (List.mem_cons_self d rest)
    have hrest := fun d' hd' => h d' (List.mem_cons_of_mem d hd')
    cases hok : (execDnsQuery resolve d dnsServer rtype timeoutSec).success with
    | true =>
      obtain ⟨m', hm'⟩ := ih hrest (a + 1) (b + 1)
        (l ++ [(execDnsQuery resolve d dnsServer rtype timeoutSec).latencyMs])
        ((d, (execDnsQuery resolve d dnsServer rtype timeoutSec).addresses) :: m)
      refine ⟨m', ?_⟩
      have step : testLoop resolve dnsServer rtype timeoutSec latencyFloorMs (d :: rest) a b l m =
          testLoop resolve dnsServer rtype timeoutSec latencyFloorMs rest (a + 1) (b + 1)
            (l ++ [(execDnsQuery resolve d dnsServer rtype timeoutSec).latencyMs])
            ((d, (execDnsQuery resolve d dnsServer rtype timeoutSec).addresses) :: m) := by
        simp [testLoop, hd, hok]
      rw [step, hm']
      simp [List.countP_cons, hok, List.filterMap_cons]
      all_goals omega
    | false =>
      obtain ⟨m', hm'⟩ := ih hrest (a + 1) b l
        ((d, (execDnsQuery resolve d dnsServer rtype timeoutSec).addresses) :: m)
      refine ⟨m', ?_⟩
      have step : testLoop resolve dnsServer rtype timeoutSec latencyFloorMs (d :: rest) a b l m =
          testLoop resolve dnsServer rtype timeoutSec latencyFloorMs rest (a + 1) b l
            ((d, (execDnsQuery resolve d dnsServer rtype timeoutSec).addresses) :: m) := by
        simp [testLoop, hd, hok]
      rw [step, hm']
      simp [List.countP_cons, hok, List.filterMap_cons]
      all_goals omega

/-- Any record produced by `测试单个dns` with the pollution check enabled is
pending iff its success rate exceeds 0.4, and carries no other state than
pending or untested (line 211). -/
theorem testSingleDns_state {E : Type} (resolve : ResolveOracle E) (isIPv4 : Bool)
    (dnsServer : String) (domains : List String) (ipMode : String)
    (timeoutSec latencyFloorMs : ℚ) (rec : BenchmarkRecord)
    (h : testSingleDns resolve isIPv4 dnsServer domains ipMode timeoutSec latencyFloorMs
      true = some rec) :
    (rec.pollutionState = "待检测" ↔ rec.successRate > (0.4 : ℚ)) ∧
    (rec.pollutionState = "待检测" ∨ rec.pollutionState = "未测试") := by
  unfold testSingleDns at h
  cases hloop : testLoop resolve dnsServer (rtypeChoice ipMode isIPv4) timeoutSec
      latencyFloorMs domains 0 0 [] [] with
  | none => rw [hloop] at h; cases h
  | some tup =>
    obtain ⟨a, b, l, m⟩ := tup
    rw [hloop] at h
    simp only [Option.some_bind, assembleRecord] at h
    by_cases hg : a = 0 ∨ l = []
    · rw [if_pos hg] at h; cases h
    · rw [if_neg hg] at h
      injection h with h2
      subst h2
      constructor
      · by_cases hr : ((b : ℚ) / (a : ℚ)) > (0.4 : ℚ)
        · simp [hr]
        · simp [hr]
      · by_cases hr : ((b : ℚ) / (a : ℚ)) > (0.4 : ℚ)
        · left; simp [hr]
        · right; simp [hr]

/-- Every record of the pollution-verification phase's output satisfies the
report invariant, given that its input records are benchmark records (the
verdict written back is always `"已污染"` or `"未污染"`, and only pending
records — rate above 0.4 — are rewritten). -/
theorem pollutionPhase_invariant (checkIp : CheckIpOracle) (rounds : RoundsByServer)
    (l : List BenchmarkRecord)
    (hl : ∀ r ∈ l, (r.pollutionState = "待检测" ↔ r.successRate > (0.4 : ℚ)) ∧
      (r.pollutionState = "待检测" ∨ r.pollutionState = "未测试")) :
    ∀ r' ∈ pollutionPhase checkIp rounds l, reportInvariant r' := by
  intro r' hr'
  unfold pollutionPhase at hr'
  obtain ⟨r0, hr0, hmap⟩ := List.mem_map.mp hr'
  subst hmap
  obtain ⟨hiff, hor⟩ := hl r0 hr0
  by_cases h0 : r0.pollutionState = "待检测"
  · rw [if_pos h0]
    right
    constructor
    · simpa using
        ultimate_verdict checkIp (rounds r0.dnsServer) r0.dnsServer r0.googleIps
    · simpa using hiff.mp h0
  · rw [if_neg h0]
    left
    refine ⟨?_, ?_⟩
    · rcases hor with h | h
      · exact absurd h h0
      · exact h
    · intro hgt
      exact h0 (hiff.mpr hgt)

/-- The finalisation of pending labels preserves the report invariant (it is
the identity on records that already satisfy it). -/
theorem finalizeLabels_invariant (l : List BenchmarkRecord)
    (hl : ∀ r ∈ l, reportInvariant r) :
    ∀ r' ∈ finalizeLabels l, reportInvariant r' := by
  intro r' hr'
  unfold finalizeLabels at hr'
  obtain ⟨r0, hr0, hmap⟩ := List.mem_map.mp hr'
  subst hmap
  have h0 := hl r0 hr0
  have hne : ¬ r0.pollutionState = "待检测" := by
    rcases h0 with ⟨h, _⟩ | ⟨h | h, _⟩ <;> simp [h]
  rw [if_neg hne]
  exact h0

/-- On records satisfying the report invariant, the implemented sort key
order (label descending in code-point order) implies the specified one
(Clean ahead of the other labels): a tie on success rate never relates an
Unverified record to a verified one, and among verified labels the
descending string order already places `"未污染"` first. -/
theorem recordBefore_imp_spec {a b : BenchmarkRecord}
    (ha : reportInvariant a) (hb : reportInvariant b)
    (hab : recordBefore a b) : recordBeforeSpec a b := by
  unfold recordBefore at hab
  unfold recordBeforeSpec
  rcases hab with h | ⟨hrate, h⟩
  · left; exact h
  · right
    refine ⟨hrate, ?_⟩
    rcases h with h | ⟨havg, hstr⟩
    · left; exact h
    · right
      refine ⟨havg, ?_⟩
      intro hbclean
      have hbgt : b.successRate > (0.4 : ℚ) := by
        rcases hb with ⟨hb1, _⟩ | ⟨_, hb2⟩
        · rw [hbclean] at hb1; exact absurd hb1 (by decide)
        · exact hb2
      have hagt : a.successRate > (0.4 : ℚ) := by rw [hrate]; exact hbgt
      rcases ha with ⟨_, ha2⟩ | ⟨ha1, _⟩
      · exact absurd hagt ha2
      · rcases ha1 with hpol | hclean
        · rw [hbclean, hpol] at hstr
          exact absurd hstr (by decide)
        · exact hclean

/-- A list of invariant-satisfying records sorted in the implemented order is
also sorted in the specified order. -/
theorem sorted_spec_of_invariant (l : List BenchmarkRecord)
    (hl : ∀ r ∈ l, reportInvariant r) (hs : List.Sorted recordBefore l) :
    List.Sorted recordBeforeSpec l :=
  List.Pairwise.imp_of_mem
    (fun ha hb hab => recordBefore_imp_spec (hl _ ha) (hl _ hb) hab) hs

/-! Claims. -/

/-- C1 (counterexample): with an empty baseline address list and oracles under
which every round passes, the Pollution Verifier does not return Polluted with
zero rounds issued — it issues all 5 rounds and returns Clean ("未污染"). -/
theorem C1_counterexample :
    ¬ ((ultimatePollutionCheck allTrueCheck allGoodRounds "8.8.8.8" []).1 = "已污染" ∧
       (ultimatePollutionCheck allTrueCheck allGoodRounds "8.8.8.8" []).2 = 0) := by
  decide

/-- C1 (amended): with an empty baseline address list the baseline loop is
vacuous and does not fail fast; the verifier always issues at least the first
of the 5 rounds (constructing a resolver and querying), and the verdict is
Clean iff all 5 rounds pass — Polluted is not automatic. -/
theorem C1_empty_baseline (checkIp : CheckIpOracle) (rounds : RoundOracle)
    (dnsServer : String) :
    1 ≤ (ultimatePollutionCheck checkIp rounds dnsServer []).2 ∧
    ((ultimatePollutionCheck checkIp rounds dnsServer []).1 = "未污染" ↔
      ∀ i, i < 5 → roundPasses checkIp rounds i = true) := by
  constructor
  · unfold ultimatePollutionCheck
    rw [if_pos (by simp : ((([] : List String)).take 3).all checkIp = true)]
    simpa using fiveRounds_issued_pos checkIp rounds 4 0 0
  · rw [ultimate_clean_iff]
    simp

/-- C2: the Pollution Verifier returns Clean iff the baseline check passes and
all 5 rounds pass; and when the baseline passes, the first failing round — at
0-based index k, i.e. 1-based position k+1 — short-circuits to Polluted with
exactly k+1 rounds issued, so the later rounds are never executed. -/
theorem C2_clean_iff_short_circuit (checkIp : CheckIpOracle) (rounds : RoundOracle)
    (dnsServer : String) (benchmarkIps : List String) :
    ((ultimatePollutionCheck checkIp rounds dnsServer benchmarkIps).1 = "未污染" ↔
      ((benchmarkIps.take 3).all checkIp = true ∧
        ∀ i, i < 5 → roundPasses checkIp rounds i = true)) ∧
    (∀ k, k < 5 → (benchmarkIps.take 3).all checkIp = true →
      (∀ i, i < k → roundPasses checkIp rounds i = true) →
      roundPasses checkIp rounds k = false →
      ultimatePollutionCheck checkIp rounds dnsServer benchmarkIps = ("已污染", k + 1)) := by
  refine ⟨ultimate_clean_iff checkIp rounds dnsServer benchmarkIps, ?_⟩
  intro k hk hb hprev hfail
  unfold ultimatePollutionCheck
  rw [if_pos hb]
  have := fiveRounds_first_fail checkIp rounds k 5 0 0 hk
    (fun j hj1 hj2 => hprev j (by omega)) (by simpa using hfail)
  simpa using this

/-- C2 (witness): a run whose baseline passes, rounds 1-2 pass and round 3
raises, returns Polluted with exactly 3 rounds issued. -/
theorem C2_witness :
    ultimatePollutionCheck allTrueCheck failThirdRounds "8.8.8.8" ["142.250.1.1"] =
      ("已污染", 3) :=
  (C2_clean_iff_short_circuit allTrueCheck failThirdRounds "8.8.8.8" ["142.250.1.1"]).2 2
    (by decide) (by decide) (by decide) (by decide)

/-- C9: any error from the underlying resolution — whatever its kind `e` — is
folded by the Query Executor into the uniform outcome `success = false`, the
measured elapsed time, and an empty address list; the output does not depend
on the error kind. -/
theorem C9_uniform_failure (E : Type) (resolve : ResolveOracle E)
    (domain dnsServer recordType : String) (timeoutSec elapsed : ℚ) (e : E)
    (h : resolve domain dnsServer recordType timeoutSec = (elapsed, Except.error e)) :
    execDnsQuery resolve domain dnsServer recordType timeoutSec =
      { success := false, latencyMs := elapsed, addresses := [] } := by
  simp only [execDnsQuery, h]

/-- C9 (witness): a concrete failing resolution yields the uniform failure
outcome with its 7 ms elapsed time. -/
theorem C9_witness :
    execDnsQuery resolveErr "google.com" "8.8.8.8" "A" (3/10) =
      { success := false, latencyMs := 7, addresses := [] } :=
  C9_uniform_failure Unit resolveErr "google.com" "8.8.8.8" "A" (3/10) 7 () rfl

/-- C10 (counterexample): it is not the case that both constructed clients
satisfy the isolation contract: the benchmark-path resolver (`获取_resolver`)
is built with `dns.resolver.Resolver()`, whose `configure` flag defaults to
True, so it reads the system resolver configuration. -/
theorem C10_counterexample :
    ¬ (IsolatedResolverSpec (createCleanResolver ["192.168.1.1"] "8.8.8.8" 3) "8.8.8.8" 3 ∧
       IsolatedResolverSpec (getResolver ["192.168.1.1"] "8.8.8.8" 3) "8.8.8.8" 3) := by
  intro h
  have h2 := h.2.1
  simp [getResolver, dnspythonResolver] at h2

/-- C10 (amended): the per-round verification resolver satisfies the full
isolation contract; the per-worker benchmark resolver sends queries only to
the candidate, applies the same value as timeout and lifetime, and has no
cache (dnspython's default), but it is constructed with the system resolver
configuration enabled rather than ignored. -/
theorem C10_resolver_amended (sysNameservers : List String) (dnsServer : String) (t : ℚ) :
    IsolatedResolverSpec (createCleanResolver sysNameservers dnsServer t) dnsServer t ∧
    (getResolver sysNameservers dnsServer t).nameservers = [dnsServer] ∧
    (getResolver sysNameservers dnsServer t).timeout = t ∧
    (getResolver sysNameservers dnsServer t).lifetime = t ∧
    (getResolver sysNameservers dnsServer t).cache = none ∧
    (getResolver sysNameservers dnsServer t).configureFromSystem = true :=
  ⟨⟨rfl, rfl, rfl, rfl, rfl⟩, rfl, rfl, rfl, rfl, rfl⟩

/-- C4: if any query outcome of the benchmark run — success or failure — has
a latency strictly below the plausibility floor, the Benchmark Runner returns
null, regardless of the outcomes of the other queries. -/
theorem C4_fast_query_aborts {E : Type} (resolve : ResolveOracle E) (isIPv4 : Bool)
    (dnsServer : String) (domains : List String) (ipMode : String)
    (timeoutSec latencyFloorMs : ℚ) (pollutionEnabled : Bool)
    (h : ∃ d ∈ domains,
      (execDnsQuery resolve d dnsServer (rtypeChoice ipMode isIPv4) timeoutSec).latencyMs <
        latencyFloorMs) :
    testSingleDns resolve isIPv4 dnsServer domains ipMode timeoutSec latencyFloorMs
      pollutionEnabled = none := by
  unfold testSingleDns
  rw [testLoop_abort resolve dnsServer (rtypeChoice ipMode isIPv4) timeoutSec latencyFloorMs
    domains h 0 0 [] []]
  rfl

/-- C4 (witness): a run whose second domain fails after 2 ms against a 10 ms
floor is aborted even though the first domain succeeded. -/
theorem C4_witness :
    testSingleDns resolveFastFail true "8.8.8.8" ["amazon.com", "google.com"] "4" (3/10) 10
      true = none :=
  C4_fast_query_aborts resolveFastFail true "8.8.8.8" ["amazon.com", "google.com"] "4"
    (3/10) 10 true (by decide)

/-- C5: when the benchmark run completes without early abort, the Benchmark
Runner returns null iff zero queries succeeded; otherwise it returns a record
whose success rate is successes divided by the number of domains iterated,
with avg/min/max latency computed over the successful latencies only. -/
theorem C5_stats {E : Type} (resolve : ResolveOracle E) (isIPv4 : Bool) (dnsServer : String)
    (domains : List String) (ipMode : String) (timeoutSec latencyFloorMs : ℚ)
    (pollutionEnabled : Bool)
    (hno : ∀ d ∈ domains,
      ¬ (execDnsQuery resolve d dnsServer (rtypeChoice ipMode isIPv4) timeoutSec).latencyMs <
        latencyFloorMs) :
    (succCount resolve dnsServer (rtypeChoice ipMode isIPv4) timeoutSec domains = 0 →
      testSingleDns resolve isIPv4 dnsServer domains ipMode timeoutSec latencyFloorMs
        pollutionEnabled = none) ∧
    (succCount resolve dnsServer (rtypeChoice ipMode isIPv4) timeoutSec domains ≠ 0 →
      ∃ rec, testSingleDns resolve isIPv4 dnsServer domains ipMode timeoutSec latencyFloorMs
          pollutionEnabled = some rec ∧
        rec.successRate =
          (succCount resolve dnsServer (rtypeChoice ipMode isIPv4) timeoutSec domains : ℚ) /
            (domains.length : ℚ) ∧
        rec.avgLatencyMs =
          (succLatencies resolve dnsServer (rtypeChoice ipMode isIPv4) timeoutSec domains).sum /
            ((succLatencies resolve dnsServer (rtypeChoice ipMode isIPv4) timeoutSec
              domains).length : ℚ) ∧
        rec.minLatencyMs =
          listMin (succLatencies resolve dnsServer (rtypeChoice ipMode isIPv4) timeoutSec
            domains) ∧
        rec.maxLatencyMs =
          listMax (succLatencies resolve dnsServer (rtypeChoice ipMode isIPv4) timeoutSec
            domains)) := by
  obtain ⟨m', hloop⟩ := testLoop_complete resolve dnsServer (rtypeChoice ipMode isIPv4)
    timeoutSec latencyFloorMs domains hno 0 0 [] []
  unfold succCount succLatencies
  constructor
  · intro hcnt
    have hlats : domains.filterMap (fun d =>
        if (execDnsQuery resolve d dnsServer (rtypeChoice ipMode isIPv4) timeoutSec).success then
          some (execDnsQuery resolve d dnsServer (rtypeChoice ipMode isIPv4) timeoutSec).latencyMs
        else none) = [] := by
      rw [List.filterMap_eq_nil_iff]
      intro d hd
      have hns := List.countP_eq_zero.mp hcnt d hd
      rw [if_neg hns]
    simp [testSingleDns, hloop, assembleRecord, hlats]
  · intro hcnt
    have hlats : ¬ domains.filterMap (fun d =>
        if (execDnsQuery resolve d dnsServer (rtypeChoice ipMode isIPv4) timeoutSec).success then
          some (execDnsQuery resolve d dnsServer (rtypeChoice ipMode isIPv4) timeoutSec).latencyMs
        else none) = [] := by
      intro hnil
      apply hcnt
      rw [List.countP_eq_zero]
      intro d hd
      have hd2 := List.filterMap_eq_nil_iff.mp hnil d hd
      intro hs
      rw [if_pos hs] at hd2
      cases hd2
    have hlen : ¬ domains.length = 0 := by
      intro h0
      apply hcnt
      rw [List.length_eq_zero] at h0
      subst h0
      rfl
    simp only [testSingleDns, hloop, Option.some_bind, assembleRecord, Nat.zero_add,
      List.nil_append]
    rw [if_neg (by rw [not_or]; exact ⟨hlen, hlats⟩)]
    exact ⟨_, rfl, rfl, rfl, rfl, rfl⟩

/-- C5 (witness): a run over two domains with one 50 ms success and one 20 ms
failure (floor 10 ms) yields a record with success rate one half. -/
theorem C5_witness :
    ∃ rec, testSingleDns resolveHalf true "8.8.8.8" ["google.com", "baidu.com"] "4"
        (3/10) 10 true = some rec ∧
      rec.successRate = (1 : ℚ) / 2 := by
  obtain ⟨rec, hsome, hrate, _⟩ :=
    (C5_stats resolveHalf true "8.8.8.8" ["google.com", "baidu.com"] "4" (3/10) 10 true
      (by decide)).2 (by decide)
  refine ⟨rec, hsome, ?_⟩
  rw [hrate]
  have hsc : succCount resolveHalf "8.8.8.8" (rtypeChoice "4" true) (3/10)
      ["google.com", "baidu.com"] = 1 := by decide
  rw [hsc]
  norm_num

/-- C6: every record produced by the Benchmark Runner (the pollution check is
always enabled by the orchestrator, `pollute = 1`) has pollution state
`"待检测"` iff its success rate exceeds 0.4, and otherwise `"未测试"`. -/
theorem C6_pending_iff_rate {E : Type} (resolve : ResolveOracle E) (isIPv4 : Bool)
    (dnsServer : String) (domains : List String) (ipMode : String)
    (timeoutSec latencyFloorMs : ℚ) (rec : BenchmarkRecord)
    (h : testSingleDns resolve isIPv4 dnsServer domains ipMode timeoutSec latencyFloorMs
      true = some rec) :
    (rec.pollutionState = "待检测" ↔ rec.successRate > (0.4 : ℚ)) ∧
    (rec.pollutionState = "待检测" ∨ rec.pollutionState = "未测试") :=
  testSingleDns_state resolve isIPv4 dnsServer domains ipMode timeoutSec latencyFloorMs
    rec h

/-- C6 (witness): a fully successful one-domain run produces a record with
rate 1 and state `"待检测"`. -/
theorem C6_witness :
    ({ dnsServer := "8.8.8.8", successRate := 1, avgLatencyMs := 50, minLatencyMs := 50,
       maxLatencyMs := 50, pollutionState := "待检测", googleIps := ["142.250.1.1"] } :
      BenchmarkRecord).pollutionState = "待检测" :=
  ((C6_pending_iff_rate resolveGood true "8.8.8.8" ["google.com"] "4" (3/10) 10
      { dnsServer := "8.8.8.8", successRate := 1, avgLatencyMs := 50, minLatencyMs := 50,
        maxLatencyMs := 50, pollutionState := "待检测", googleIps := ["142.250.1.1"] }
      (by norm_num [testSingleDns, testLoop, execDnsQuery, rtypeChoice, resolveGood,
        assembleRecord, listMin, listMax])).1).mpr (by norm_num)

/-- C3 (code_bug): with a well-behaved oracle and a valid configuration the
probing core raises the `NameError` for the never-assigned name
`开启污染检查` right after the benchmark phase; in general the core's result
is always an error — exit-1 on zero usable records, the `NameError`
otherwise — and never a report. -/
theorem C3_name_error :
    mainCore resolveGood (fun _ => true) ["8.8.8.8"] ["google.com"] "4" (3/10) 10 =
      Except.error RunError.nameErrorPollutionFlag ∧
    ∀ (E : Type) (resolve : ResolveOracle E) (isIPv4 : String → Bool)
      (dnsList testDomains : List String) (ipMode : String)
      (timeoutSec latencyFloorMs : ℚ) (report : List BenchmarkRecord),
      mainCore resolve isIPv4 dnsList testDomains ipMode timeoutSec latencyFloorMs ≠
        Except.ok report := by
  constructor
  · norm_num [mainCore, testSingleDns, testLoop, execDnsQuery, rtypeChoice, resolveGood,
      assembleRecord, listMin, listMax]
    intro h
    cases h
  · intro E resolve isIPv4 dnsList testDomains ipMode timeoutSec latencyFloorMs report
    simp only [mainCore]
    split <;> simp

/-- C7: no record in the final report has pollution state `"待检测"`
(PendingVerification): every pending record is either overwritten by the
verification phase — whose verdict is always `"已污染"` or `"未污染"` — or
finalised to `"未测试"` before export. -/
theorem C7_no_pending_in_report (checkIp : CheckIpOracle) (rounds : RoundsByServer)
    (results : List BenchmarkRecord) :
    (∀ r ∈ exportPipeline checkIp rounds results, r.pollutionState ≠ "待检测") ∧
    (∀ (dnsServer : String) (benchmarkIps : List String),
      (ultimatePollutionCheck checkIp (rounds dnsServer) dnsServer benchmarkIps).1 =
        "已污染" ∨
      (ultimatePollutionCheck checkIp (rounds dnsServer) dnsServer benchmarkIps).1 =
        "未污染") := by
  constructor
  · intro r hr
    unfold exportPipeline at hr
    rw [(List.perm_insertionSort recordBefore _).mem_iff] at hr
    unfold finalizeLabels at hr
    obtain ⟨r0, _, hmap⟩ := List.mem_map.mp hr
    subst hmap
    by_cases h0 : r0.pollutionState = "待检测"
    · rw [if_pos h0]; simp
    · rw [if_neg h0]; exact h0
  · intro ds ips
    exact ultimate_verdict checkIp (rounds ds) ds ips

/-- C7 (witness): a pending record whose verification verdict is clean
appears in the report as `"未污染"`, not `"待检测"`. -/
theorem C7_witness :
    ({ pendingRecord with pollutionState := "未污染" } : BenchmarkRecord).pollutionState ≠
      "待检测" :=
  (C7_no_pending_in_report allTrueCheck (fun _ => allGoodRounds) [pendingRecord]).1
    { pendingRecord with pollutionState := "未污染" } (by decide)

/-- C8: every report the pipeline produces from benchmark output (the
pollution check enabled, as the orchestrator passes `pollute = 1`) is sorted
by success rate descending, then average latency ascending, then the
pollution label with Clean ahead of every other label.  Although line 339
sorts the label column merely descending in code-point order, on reachable
reports an Unverified record (rate at most 0.4) never ties a verified record
(rate above 0.4) on success rate, and among verified labels the descending
string order already places `"未污染"` ahead of `"已污染"`, so the
implemented order coincides with the claimed one. -/
theorem C8_sorted_report {E : Type} (resolve : ResolveOracle E) (isIPv4 : String → Bool)
    (dnsList testDomains : List String) (ipMode : String)
    (timeoutSec latencyFloorMs : ℚ) (checkIp : CheckIpOracle) (rounds : RoundsByServer) :
    List.Sorted recordBeforeSpec
      (exportPipeline checkIp rounds
        (dnsList.filterMap (fun ds =>
          testSingleDns resolve (isIPv4 ds) ds testDomains ipMode timeoutSec
            latencyFloorMs true))) := by
  have hbench : ∀ r ∈ dnsList.filterMap (fun ds =>
      testSingleDns resolve (isIPv4 ds) ds testDomains ipMode timeoutSec
        latencyFloorMs true),
      (r.pollutionState = "待检测" ↔ r.successRate > (0.4 : ℚ)) ∧
      (r.pollutionState = "待检测" ∨ r.pollutionState = "未测试") := by
    intro r hr
    obtain ⟨ds, _, hds⟩ := List.mem_filterMap.mp hr
    exact testSingleDns_state resolve (isIPv4 ds) ds testDomains ipMode timeoutSec
      latencyFloorMs r hds
  have hinv2 := finalizeLabels_invariant _
    (pollutionPhase_invariant checkIp rounds _ hbench)
  have hinv3 : ∀ r ∈ exportPipeline checkIp rounds
      (dnsList.filterMap (fun ds =>
        testSingleDns resolve (isIPv4 ds) ds testDomains ipMode timeoutSec
          latencyFloorMs true)), reportInvariant r := by
    intro r hr
    apply hinv2
    exact (List.perm_insertionSort recordBefore _).mem_iff.mp hr
  exact sorted_spec_of_invariant _ hinv3
    (List.sorted_insertionSort recordBefore _)

end DnsTest
